import Mathlib

/-!
Verification of the wallet trading-volume analyzer
(`scripts/wallet_trading_volume.py`, `web/server.py`).

The development shallowly embeds the pipeline's core functions:

* a dynamic value model (`PyVal`) of Python values, used to settle totality
  questions about the normalizers over arbitrary (garbage) input;
* typed embeddings of the two normalizers (`parse_helius_transactions` for the
  Enriched variant, `parse_token_transfers` for the Minimal variant);
* the window aggregation of `analyze_wallet_volume` (lines 403-429);
* the paginated history fetch loop (`get_helius_transaction_history`);
* the primary price feed call, in both its capped volume-path form
  (`get_jupiter_prices`) and its uncapped balance-path form
  (`get_jupiter_prices_balance`).

Machine floats of the source are modelled as exact rationals; timestamps as
integers (whole seconds).
-/

/-- Dynamic model of the Python values the normalizers can receive.
Dictionaries are association lists (later bindings shadow earlier ones). -/
inductive PyVal : Type where
  | pnone : PyVal
  | pbool : Bool → PyVal
  | pnum : ℚ → PyVal
  | pstr : String → PyVal
  | plist : List PyVal → PyVal
  | pdict : List (String × PyVal) → PyVal

/-- Python truthiness (`if v:`): `None`, `False`, `0`, empty string/list/dict
are falsy, everything else truthy. -/
def pyTruthy : PyVal → Bool
  | .pnone => false
  | .pbool b => b
  | .pnum q => decide (q ≠ 0)
  | .pstr s => ¬ s.isEmpty
  | .plist xs => ¬ xs.isEmpty
  | .pdict kvs => ¬ kvs.isEmpty

/-- Python `==` restricted to the comparisons the embedded code performs
(values compared against address strings, plus numeric/bool coercion).
Container-to-container equality is not needed by the embedded code and is
modelled as `false`. -/
def pyEq : PyVal → PyVal → Bool
  | .pnum a, .pnum b => decide (a = b)
  | .pnum a, .pbool b => decide (a = (if b then 1 else 0))
  | .pbool a, .pnum b => decide ((if a then (1 : ℚ) else 0) = b)
  | .pbool a, .pbool b => a == b
  | .pstr a, .pstr b => a == b
  | .pnone, .pnone => true
  | _, _ => false

/-- Lookup in a dict's association list; a later binding for the same key
wins, as in a Python dict built left to right. -/
def assocFind (kvs : List (String × PyVal)) (k : String) : Option PyVal :=
  kvs.reverse.lookup k

/-- `v.get(k, d)`: succeeds on dicts, raises `AttributeError` on every other
value (strings, lists, numbers have no `.get`). -/
def pyGet (v : PyVal) (k : String) (d : PyVal) : Except String PyVal :=
  match v with
  | .pdict kvs => .ok ((assocFind kvs k).getD d)
  | _ => .error "AttributeError"

/-- Total variant of `pyGet` used to state wellformedness (callers must have
checked the value is a dict). -/
def dGetD (v : PyVal) (k : String) (d : PyVal) : PyVal :=
  match v with
  | .pdict kvs => (assocFind kvs k).getD d
  | _ => d

/-- `for x in v`: lists iterate their elements, strings their characters,
dicts their keys; other values raise `TypeError`. -/
def pyIter : PyVal → Except String (List PyVal)
  | .plist xs => .ok xs
  | .pstr s => .ok (s.toList.map (fun c => .pstr (String.mk [c])))
  | .pdict kvs => .ok (kvs.map (fun kv => .pstr kv.1))
  | _ => .error "TypeError"

/-- Numeric value of a decimal digit. -/
def digitVal (c : Char) : Nat := c.toNat - 48

/-- Value of a digit list read in base 10. -/
def digitsVal (cs : List Char) : Nat :=
  cs.foldl (fun a c => a * 10 + digitVal c) 0

/-- Unsigned decimal literal: `digits`, `digits.digits`, `.digits` or
`digits.`, rejecting anything else. -/
def parseUnsigned (cs : List Char) : Option ℚ :=
  let ip := cs.takeWhile Char.isDigit
  let rest := cs.dropWhile Char.isDigit
  match rest with
  | [] => if ip.isEmpty then none else some (digitsVal ip : ℚ)
  | '.' :: fp =>
    if fp.all Char.isDigit ∧ ¬ (ip.isEmpty ∧ fp.isEmpty) then
      some ((digitsVal ip : ℚ) + (digitsVal fp : ℚ) / (10 : ℚ) ^ fp.length)
    else none
  | _ => none

/-- The common decimal string forms accepted by Python's `float` (optional
sign, decimal digits, optional fractional part); exponent and special forms
are not modelled — no claim depends on them. -/
def parsePyDecimal (s : String) : Option ℚ :=
  match s.toList with
  | '-' :: cs => (parseUnsigned cs).map Neg.neg
  | '+' :: cs => parseUnsigned cs
  | cs => parseUnsigned cs

/-- Python's `float(v)`: exact on numbers and booleans, parses decimal
strings, raises `ValueError` on unconvertible strings and `TypeError` on
`None`, lists and dicts. -/
def pyFloat : PyVal → Except String ℚ
  | .pnum q => .ok q
  | .pbool b => .ok (if b then 1 else 0)
  | .pstr s =>
    match parsePyDecimal s with
    | some q => .ok q
    | none => .error "ValueError"
  | _ => .error "TypeError"

/-- Whether an `Except` computation succeeded (no exception raised). -/
def exOk : Except String α → Bool
  | .ok _ => true
  | .error _ => false

/-- The SOL pseudo-mint used by the source for native transfers. -/
def solMint : String := "So11111111111111111111111111111111111111112"

/-- The transfer dict appended by `parse_helius_transactions`
(`wallet_trading_volume.py` lines 217-222 etc.). -/
def mkTransferDict (mintV : PyVal) (change : ℚ) (bt : PyVal) (ty : String) : PyVal :=
  .pdict [("mint", mintV), ("change", .pnum change), ("block_time", bt), ("type", .pstr ty)]

/-- Dynamic embedding of the token-transfer sub-loop body of
`parse_helius_transactions` (`wallet_trading_volume.py` lines 207-229):
reads `mint`, `fromUserAccount`, `toUserAccount`, converts `tokenAmount`
with `float`, skips falsy mints and zero amounts, then classifies by
recipient first, sender second. -/
def rawTokenSub (wallet : String) (bt : PyVal) (sub : PyVal) :
    Except String (List PyVal) := do
  let mintV ← pyGet sub "mint" (.pstr "")
  let fromV ← pyGet sub "fromUserAccount" (.pstr "")
  let toV ← pyGet sub "toUserAccount" (.pstr "")
  let amtV ← pyGet sub "tokenAmount" (.pnum 0)
  let amount ← pyFloat amtV
  if ¬ pyTruthy mintV ∨ amount = 0 then pure []
  else if pyEq toV (.pstr wallet) then pure [mkTransferDict mintV amount bt "buy"]
  else if pyEq fromV (.pstr wallet) then pure [mkTransferDict mintV (-amount) bt "sell"]
  else pure []

/-- Dynamic embedding of the native-transfer sub-loop body of
`parse_helius_transactions` (`wallet_trading_volume.py` lines 233-254):
lamports are divided by 1e9 and amounts below 0.001 are skipped as fees. -/
def rawNativeSub (wallet : String) (bt : PyVal) (sub : PyVal) :
    Except String (List PyVal) := do
  let fromV ← pyGet sub "fromUserAccount" (.pstr "")
  let toV ← pyGet sub "toUserAccount" (.pstr "")
  let amtV ← pyGet sub "amount" (.pnum 0)
  let amtRaw ← pyFloat amtV
  let amount := amtRaw / 1000000000
  if amount < 1 / 1000 then pure []
  else if pyEq toV (.pstr wallet) then pure [mkTransferDict (.pstr solMint) amount bt "buy"]
  else if pyEq fromV (.pstr wallet) then pure [mkTransferDict (.pstr solMint) (-amount) bt "sell"]
  else pure []

/-- Sequential accumulation of the per-sub-entry results (the Python
`transfers.append` calls inside a `for` loop). -/
def rawAppendAll (f : PyVal → Except String (List PyVal)) (xs : List PyVal)
    (acc : List PyVal) : Except String (List PyVal) :=
  xs.foldlM (fun a x => do
    let one ← f x
    pure (a ++ one)) acc

/-- Dynamic embedding of the per-record body of `parse_helius_transactions`
(`wallet_trading_volume.py` lines 201-254). `timestamp` and `type` are read
with defaults (never raising on a dict); the two sub-lists are iterated. -/
def rawParseTx (wallet : String) (tx : PyVal) : Except String (List PyVal) := do
  let bt ← pyGet tx "timestamp" (.pnum 0)
  let _ty ← pyGet tx "type" (.pstr "")
  let tokV ← pyGet tx "tokenTransfers" (.plist [])
  let toks ← pyIter tokV
  let r1 ← rawAppendAll (rawTokenSub wallet bt) toks []
  let natV ← pyGet tx "nativeTransfers" (.plist [])
  let nats ← pyIter natV
  let r2 ← rawAppendAll (rawNativeSub wallet bt) nats r1
  pure r2

/-- Dynamic embedding of `parse_helius_transactions`
(`wallet_trading_volume.py` lines 197-256) over arbitrary Python values:
the result is the transfer list, or the first uncaught exception. -/
def rawParseHelius (txs : List PyVal) (wallet : String) :
    Except String (List PyVal) :=
  rawAppendAll (rawParseTx wallet) txs []

/-- A sub-entry is wellformed when it is a dict whose amount field (under
`key`, defaulting to `0`) is convertible by `float`. -/
def wfSub (key : String) (sub : PyVal) : Bool :=
  match sub with
  | .pdict _ => exOk (pyFloat (dGetD sub key (.pnum 0)))
  | _ => false

/-- A sub-list field is wellformed when it holds a list of wellformed
sub-entries. -/
def wfListOf (v : PyVal) (key : String) : Bool :=
  match v with
  | .plist xs => xs.all (wfSub key)
  | _ => false

/-- A raw Enriched record is wellformed when it is a dict whose
`tokenTransfers` and `nativeTransfers` fields (defaulting to `[]`) are lists
of dicts with `float`-convertible amount fields. All other fields are
unconstrained: the code reads them with defaults and compares them without
raising. -/
def wfTxRaw (tx : PyVal) : Bool :=
  match tx with
  | .pdict _ =>
    wfListOf (dGetD tx "tokenTransfers" (.plist [])) "tokenAmount" &&
    wfListOf (dGetD tx "nativeTransfers" (.plist [])) "amount"
  | _ => false

/-- Canonical transfer entry as built by the normalizers: the dicts
`{"mint", "change", "block_time", "type"}` (the Minimal variant adds
`"decimals"`; the Enriched variant omits it, modelled as `none`). -/
structure Transfer where
  mint : String
  change : ℚ
  block_time : Int
  ttype : String
  decimals : Option Nat
deriving DecidableEq, Repr

/-- Typed view of one entry of an Enriched record's `tokenTransfers` list;
absent keys are `none` (the code reads them with defaults). The amount is
assumed numeric here; the dynamic model covers ill-typed amounts. -/
structure TokenXfer where
  mint : Option String
  fromUser : Option String
  toUser : Option String
  tokenAmount : Option ℚ
deriving DecidableEq, Repr

/-- Typed view of one entry of an Enriched record's `nativeTransfers` list
(`amount` is in lamports). -/
structure NativeXfer where
  fromUser : Option String
  toUser : Option String
  amount : Option ℚ
deriving DecidableEq, Repr

/-- Typed view of an Enriched (Helius) record. `transactionError` is carried
by the raw data but never read by `parse_helius_transactions`. -/
structure HeliusTx where
  timestamp : Option Int
  txType : Option String
  transactionError : Option String
  tokenTransfers : List TokenXfer
  nativeTransfers : List NativeXfer
deriving DecidableEq, Repr

/-- Token sub-loop body of `parse_helius_transactions`
(`wallet_trading_volume.py` lines 207-229): skip empty mint or zero amount;
recipient match is checked before sender match. -/
def parseTokenSub (wallet : String) (bt : Int) (s : TokenXfer) : List Transfer :=
  let mint := s.mint.getD ""
  let fromA := s.fromUser.getD ""
  let toA := s.toUser.getD ""
  let amount := s.tokenAmount.getD 0
  if mint.isEmpty ∨ amount = 0 then []
  else if toA = wallet then [⟨mint, amount, bt, "buy", none⟩]
  else if fromA = wallet then [⟨mint, -amount, bt, "sell", none⟩]
  else []

/-- Native sub-loop body of `parse_helius_transactions`
(`wallet_trading_volume.py` lines 233-254): lamports divided by 1e9,
amounts below 0.001 skipped as fee noise (this also drops negatives). -/
def parseNativeSub (wallet : String) (bt : Int) (s : NativeXfer) : List Transfer :=
  let fromA := s.fromUser.getD ""
  let toA := s.toUser.getD ""
  let amount := (s.amount.getD 0) / 1000000000
  if amount < 1 / 1000 then []
  else if toA = wallet then [⟨solMint, amount, bt, "buy", none⟩]
  else if fromA = wallet then [⟨solMint, -amount, bt, "sell", none⟩]
  else []

/-- Typed embedding of `parse_helius_transactions`
(`wallet_trading_volume.py` lines 197-256). `block_time` defaults to `0`
when the record has no `timestamp`. -/
def parse_helius_transactions (txs : List HeliusTx) (wallet : String) : List Transfer :=
  txs.flatMap (fun tx =>
    let bt := tx.timestamp.getD 0
    tx.tokenTransfers.flatMap (parseTokenSub wallet bt) ++
    tx.nativeTransfers.flatMap (parseNativeSub wallet bt))

/-- Replace the (unread) error flag of an Enriched record. -/
def setTxError (r : HeliusTx) (e : Option String) : HeliusTx :=
  ⟨r.timestamp, r.txType, e, r.tokenTransfers, r.nativeTransfers⟩

/-- Typed view of one entry of `preTokenBalances` / `postTokenBalances` in a
Minimal record (`uiTokenAmount.uiAmount` may be `null`). -/
structure TokenBalance where
  accountIndex : Nat
  mint : Option String
  owner : Option String
  uiAmount : Option ℚ
  decimals : Option Nat
deriving DecidableEq, Repr

/-- Typed view of a Minimal record's `meta` object. -/
structure MinimalMeta where
  err : Option String
  preTokenBalances : List TokenBalance
  postTokenBalances : List TokenBalance
  preBalances : List Int
  postBalances : List Int
deriving DecidableEq, Repr

/-- Typed view of a Minimal (RPC `getTransaction`) record. `accountKeys`
holds the pubkeys extracted from `transaction.message.accountKeys` (the
source accepts both plain strings and `{"pubkey": ...}` dicts). A failed
fetch (`{}`/falsy record) corresponds to `meta = none`. -/
structure MinimalTx where
  meta : Option MinimalMeta
  accountKeys : List String
  blockTime : Option Int
deriving DecidableEq, Repr

/-- Python `a or b` on optional strings: an absent or empty first operand
falls through to the second. -/
def pyOrStr (a b : Option String) : Option String :=
  match a with
  | some s => if s.isEmpty then b else some s
  | none => b

/-- Python `a or b or default` tail on optional numbers, where `0` is falsy
(used for the `decimals` chain). -/
def orNat (a : Option Nat) (b : Nat) : Nat :=
  match a with
  | some n => if n = 0 then b else n
  | none => b

/-- `{b["accountIndex"]: b for b in bs}.get(i)`: the last entry with a given
index wins. -/
def lookupIdx (bs : List TokenBalance) (i : Nat) : Option TokenBalance :=
  bs.reverse.find? (fun b => b.accountIndex == i)

/-- Truthiness of `meta.get("err")` as modelled (`None` and `""` falsy). -/
def errTruthy : Option String → Bool
  | none => false
  | some s => ¬ s.isEmpty

/-- Per-index body of the token-balance diff loop of `parse_token_transfers`
(`wallet_trading_volume.py` lines 289-312). -/
def diffTokenIdx (wallet : String) (bt : Int) (pre post : List TokenBalance)
    (idx : Nat) : List Transfer :=
  let p := lookupIdx pre idx
  let q := lookupIdx post idx
  let mintV := pyOrStr (q.bind (·.mint)) (p.bind (·.mint))
  let ownerV := pyOrStr (q.bind (·.owner)) (p.bind (·.owner))
  let mintOk : Bool := match mintV with | some s => ¬ s.isEmpty | none => false
  if mintOk = false ∨ ownerV ≠ some wallet then []
  else
    let preAmt := (p.bind (·.uiAmount)).getD 0
    let postAmt := (q.bind (·.uiAmount)).getD 0
    let decs := orNat (q.bind (·.decimals)) (orNat (p.bind (·.decimals)) 9)
    let change := postAmt - preAmt
    if |change| > 0 then
      [⟨mintV.getD "", change, bt, if change > 0 then "buy" else "sell", some decs⟩]
    else []

/-- Per-account body of the SOL balance diff loop of `parse_token_transfers`
(`wallet_trading_volume.py` lines 319-333). -/
def diffSolIdx (wallet : String) (bt : Int) (preSol postSol : List Int)
    (i : Nat) (key : String) : List Transfer :=
  if key = wallet ∧ i < preSol.length ∧ i < postSol.length then
    let changeSol : ℚ := ((postSol.getD i 0 : Int) - (preSol.getD i 0 : Int)) / 1000000000
    if |changeSol| > 1 / 1000 then
      [⟨solMint, changeSol, bt, if changeSol > 0 then "buy" else "sell", some 9⟩]
    else []
  else []

/-- Typed embedding of `parse_token_transfers` (`wallet_trading_volume.py`
lines 258-335): records without `meta` (or falsy records) yield nothing; a
truthy `meta.err` skips the whole record; otherwise token balances are
diffed per account index restricted to the target owner, and the target's
SOL balance is diffed via the account-key list. -/
def parse_token_transfers (tx : MinimalTx) (wallet : String) : List Transfer :=
  match tx.meta with
  | none => []
  | some meta =>
    let bt := tx.blockTime.getD 0
    if errTruthy meta.err then []
    else
      let pre := meta.preTokenBalances
      let post := meta.postTokenBalances
      let allIdx := (pre.map (·.accountIndex) ++ post.map (·.accountIndex)).dedup
      let tokenPart := allIdx.flatMap (diffTokenIdx wallet bt pre post)
      let solPart :=
        if meta.preBalances ≠ [] ∧ meta.postBalances ≠ [] ∧ tx.accountKeys ≠ [] then
          tx.accountKeys.enum.flatMap
            (fun ik => diffSolIdx wallet bt meta.preBalances meta.postBalances ik.1 ik.2)
        else []
      tokenPart ++ solPart

/-- A timeframe's start: `datetime.min` for `"lifetime"` (below every
representable block time), or a concrete instant. -/
inductive TStart : Type where
  | minTime : TStart
  | tAt : Int → TStart
deriving DecidableEq, Repr

/-- The aggregation guard `tx_time >= tf_start`
(`wallet_trading_volume.py` line 411). -/
def TStart.includes : TStart → Int → Bool
  | .minTime, _ => true
  | .tAt s, t => decide (s ≤ t)

/-- The static timeframe table of `analyze_wallet_volume`
(`wallet_trading_volume.py` lines 341-346), in seconds before `now`. -/
def timeframes (now : Int) : List (String × TStart) :=
  [("1d", .tAt (now - 86400)),
   ("7d", .tAt (now - 7 * 86400)),
   ("30d", .tAt (now - 30 * 86400)),
   ("lifetime", .minTime)]

/-- `tx_time = datetime.fromtimestamp(block_time) if block_time else now`
(`wallet_trading_volume.py` line 408): a zero (falsy) block time is replaced
by the current time. -/
def txTime (now : Int) (t : Transfer) : Int :=
  if t.block_time = 0 then now else t.block_time

/-- Whether the aggregation loop counts transfer `t` into the window named
`tf` (the guard of `wallet_trading_volume.py` lines 410-411). -/
def inWindow (now : Int) (t : Transfer) (tf : String) : Bool :=
  match (timeframes now).lookup tf with
  | some st => st.includes (txTime now t)
  | none => false

/-- The mutable per-(asset, window) accumulator of the first aggregation
pass: bought units, sold units, trade count. -/
structure Core where
  buy : ℚ
  sell : ℚ
  trades : Nat
deriving DecidableEq, Repr

/-- One accumulation step (`wallet_trading_volume.py` lines 412-416): a
positive change adds to `buy`, otherwise `|change|` adds to `sell`; the
trade count always increments. -/
def tAdd (c : Core) (t : Transfer) : Core :=
  if t.change > 0 then ⟨c.buy + t.change, c.sell, c.trades + 1⟩
  else ⟨c.buy, c.sell + |t.change|, c.trades + 1⟩

/-- Pointwise update of the nested `volume_data` map at one
(mint, timeframe) cell. -/
def updMap (v : String → String → Core) (mint tf : String)
    (f : Core → Core) : String → String → Core :=
  fun a b => if a = mint ∧ b = tf then f (v a b) else v a b

/-- Folding one transfer into `volume_data`
(`wallet_trading_volume.py` lines 404-416): every configured window whose
start lies at or before the transfer's effective time receives the update. -/
def tallyOne (now : Int) (v : String → String → Core) (t : Transfer) :
    String → String → Core :=
  (timeframes now).foldl
    (fun acc tf =>
      if tf.2.includes (txTime now t) then updMap acc t.mint tf.1 (fun c => tAdd c t)
      else acc) v

/-- The first aggregation pass of `analyze_wallet_volume` over the whole
transfer list; unmentioned cells stay at the defaultdict zero state. -/
def tally (now : Int) (ts : List Transfer) : String → String → Core :=
  ts.foldl (tallyOne now) (fun _ _ => ⟨0, 0, 0⟩)

/-- `float(prices.get(mint, {}).get("price", 0))`
(`wallet_trading_volume.py` line 425): a missing quote reads as price 0. -/
def priceOf (prices : List (String × ℚ)) (mint : String) : ℚ :=
  (prices.lookup mint).getD 0

/-- A finalized aggregate bucket after the USD pass
(`wallet_trading_volume.py` lines 424-429). -/
structure Bucket where
  buy : ℚ
  sell : ℚ
  buy_usd : ℚ
  sell_usd : ℚ
  total_usd : ℚ
  trades : Nat
deriving DecidableEq, Repr

/-- The (mint, timeframe) cell of the `volume_data` produced by
`analyze_wallet_volume` (`wallet_trading_volume.py` lines 403-429), with the
transfer list and resolved prices passed explicitly: one accumulation pass,
then USD values from the single current price per asset. -/
def volume_bucket (now : Int) (ts : List Transfer) (prices : List (String × ℚ))
    (mint tf : String) : Bucket :=
  let c := tally now ts mint tf
  let p := priceOf prices mint
  ⟨c.buy, c.sell, c.buy * p, c.sell * p, c.buy * p + c.sell * p, c.trades⟩

/-- The only part of a fetched history record the pagination loop inspects:
its optional `signature`. -/
structure PageTx where
  signature : Option String
deriving DecidableEq, Repr

/-- `transactions[-1].get("signature")`. -/
def lastSig (page : List PageTx) : Option String :=
  page.getLast?.bind (·.signature)

/-- `not before_sig`: the cursor is missing or falsy (empty string). -/
def sigMissing : Option String → Bool
  | none => true
  | some s => s.isEmpty

/-- The content-driven stop conditions of the pagination loop
(`wallet_trading_volume.py` lines 175-186): empty page, missing/falsy
pagination key, or short page (< 100 records). -/
def stopPage (page : List PageTx) : Prop :=
  page = [] ∨ sigMissing (lastSig page) = true ∨ page.length < 100

instance (page : List PageTx) : Decidable (stopPage page) := by
  unfold stopPage; infer_instance

/-- Result of the fetch loop: accumulated records, number of page requests
issued, and whether the loop exited by itself (rather than exhausting the
fuel bound of the model). -/
structure FetchRes where
  records : List PageTx
  requests : Nat
  finished : Bool
deriving DecidableEq, Repr

/-- Embedding of the pagination loop of `get_helius_transaction_history`
(`wallet_trading_volume.py` lines 162-195). The page source `api` abstracts
one HTTP request: `.error` covers a non-200 status or a raised exception
(both `break`); `fuel` bounds the unrolling (the Python loop is unbounded),
with `finished = false` marking a run cut off by fuel. -/
def get_helius_transaction_history
    (api : Option String → Except Unit (List PageTx)) :
    Nat → Option String → List PageTx → Nat → FetchRes
  | 0, _, acc, reqs => ⟨acc, reqs, false⟩
  | fuel + 1, cursor, acc, reqs =>
    match api cursor with
    | .error _ => ⟨acc, reqs + 1, true⟩
    | .ok page =>
      if page = [] then ⟨acc, reqs + 1, true⟩
      else
        let acc2 := acc ++ page
        let bsig := lastSig page
        if sigMissing bsig = true ∨ page.length < 100 then ⟨acc2, reqs + 1, true⟩
        else get_helius_transaction_history api fuel bsig acc2 (reqs + 1)

/-- First scenario page: 100 records, pagination key "a". -/
def page1 : List PageTx := List.replicate 100 ⟨some "a"⟩

/-- Second scenario page: 100 records, pagination key "b". -/
def page2 : List PageTx := List.replicate 100 ⟨some "b"⟩

/-- Third scenario page: 37 records. -/
def page3 : List PageTx := List.replicate 37 ⟨some "c"⟩

/-- Page source returning pages of sizes [100, 100, 37]. -/
def scenarioApi : Option String → Except Unit (List PageTx)
  | none => .ok page1
  | some "a" => .ok page2
  | some "b" => .ok page3
  | some _ => .error ()

/-- The fetch of the [100, 100, 37] pagination scenario, started like the
source: no cursor, empty ledger, no requests issued yet. -/
def scenarioFetch (fuel : Nat) : FetchRes :=
  get_helius_transaction_history scenarioApi fuel none [] 0

/-- `mints[:100]`: the ids actually sent to the primary price feed
(`wallet_trading_volume.py` line 132). -/
def jupiterRequestIds (mints : List String) : List String :=
  mints.take 100

/-- The `ids` query parameter string `",".join(mints[:100])`. -/
def idsParam (mints : List String) : String :=
  String.intercalate "," (jupiterRequestIds mints)

/-- Embedding of `get_jupiter_prices` (`wallet_trading_volume.py` lines
127-148). `api` abstracts the single HTTP request on the capped id list:
`none` covers a non-200 status or a raised exception (the function then
returns `{}`); a response row carries `usdPrice` when its info dict has one.
Rows without a `usdPrice` field are dropped. -/
def get_jupiter_prices (api : List String → Option (List (String × Option ℚ)))
    (mints : List String) : List (String × ℚ) :=
  if mints = [] then []
  else
    match api (jupiterRequestIds mints) with
    | none => []
    | some rows => rows.filterMap (fun r => r.2.map (fun p => (r.1, p)))

/-- The ids joined into the balance-path query string
(`wallet_balance.py` line 105, `ids = ",".join(mint_addresses)`): the whole
input list, with no 100-id cap. -/
def jupiterRequestIdsBalance (mint_addresses : List String) : List String :=
  mint_addresses

/-- Embedding of `get_jupiter_prices` in `wallet_balance.py` (lines
100-112): the single request carries every input id, and a successful
response's `data` mapping is returned unfiltered. `api` abstracts the GET:
`none` covers a non-200 status or a response body without a `data` key. -/
def get_jupiter_prices_balance (api : List String → Option (List (String × ℚ)))
    (mint_addresses : List String) : List (String × ℚ) :=
  if mint_addresses = [] then []
  else
    match api (jupiterRequestIdsBalance mint_addresses) with
    | none => []
    | some rows => rows

lemma updMap_apply (v : String → String → Core) (mint tf a b : String)
    (f : Core → Core) :
    updMap v mint tf f a b = if a = mint ∧ b = tf then f (v a b) else v a b := rfl

lemma ite_apply2 (c : Prop) [Decidable c] (f g : String → String → Core)
    (a b : String) :
    (if c then f else g) a b = if c then f a b else g a b := by
  split <;> rfl

lemma inWindow_1d (now : Int) (t : Transfer) :
    inWindow now t "1d" = TStart.includes (.tAt (now - 86400)) (txTime now t) := rfl

lemma inWindow_7d (now : Int) (t : Transfer) :
    inWindow now t "7d" = TStart.includes (.tAt (now - 604800)) (txTime now t) := rfl

lemma inWindow_30d (now : Int) (t : Transfer) :
    inWindow now t "30d" = TStart.includes (.tAt (now - 2592000)) (txTime now t) := rfl

lemma inWindow_lifetime (now : Int) (t : Transfer) :
    inWindow now t "lifetime" = true := rfl

lemma tallyOne_1d (now : Int) (v : String → String → Core) (t : Transfer)
    (m : String) :
    tallyOne now v t m "1d" =
      if m = t.mint ∧ inWindow now t "1d" = true then tAdd (v m "1d") t
      else v m "1d" := by
  simp only [tallyOne, timeframes, List.foldl, inWindow_1d]
  by_cases h1 : TStart.includes (.tAt (now - 86400)) (txTime now t) = true <;>
  by_cases h2 : TStart.includes (.tAt (now - 604800)) (txTime now t) = true <;>
  by_cases h3 : TStart.includes (.tAt (now - 2592000)) (txTime now t) = true <;>
  by_cases hm : m = t.mint <;>
  simp [h1, h2, h3, hm, ite_apply2, updMap,
    show TStart.includes TStart.minTime (txTime now t) = true from rfl]

lemma tallyOne_7d (now : Int) (v : String → String → Core) (t : Transfer)
    (m : String) :
    tallyOne now v t m "7d" =
      if m = t.mint ∧ inWindow now t "7d" = true then tAdd (v m "7d") t
      else v m "7d" := by
  simp only [tallyOne, timeframes, List.foldl, inWindow_7d]
  by_cases h1 : TStart.includes (.tAt (now - 86400)) (txTime now t) = true <;>
  by_cases h2 : TStart.includes (.tAt (now - 604800)) (txTime now t) = true <;>
  by_cases h3 : TStart.includes (.tAt (now - 2592000)) (txTime now t) = true <;>
  by_cases hm : m = t.mint <;>
  simp [h1, h2, h3, hm, ite_apply2, updMap,
    show TStart.includes TStart.minTime (txTime now t) = true from rfl]

lemma tallyOne_30d (now : Int) (v : String → String → Core) (t : Transfer)
    (m : String) :
    tallyOne now v t m "30d" =
      if m = t.mint ∧ inWindow now t "30d" = true then tAdd (v m "30d") t
      else v m "30d" := by
  simp only [tallyOne, timeframes, List.foldl, inWindow_30d]
  by_cases h1 : TStart.includes (.tAt (now - 86400)) (txTime now t) = true <;>
  by_cases h2 : TStart.includes (.tAt (now - 604800)) (txTime now t) = true <;>
  by_cases h3 : TStart.includes (.tAt (now - 2592000)) (txTime now t) = true <;>
  by_cases hm : m = t.mint <;>
  simp [h1, h2, h3, hm, ite_apply2, updMap,
    show TStart.includes TStart.minTime (txTime now t) = true from rfl]

lemma tallyOne_lifetime (now : Int) (v : String → String → Core) (t : Transfer)
    (m : String) :
    tallyOne now v t m "lifetime" =
      if m = t.mint then tAdd (v m "lifetime") t else v m "lifetime" := by
  simp only [tallyOne, timeframes, List.foldl]
  by_cases h1 : TStart.includes (.tAt (now - 86400)) (txTime now t) = true <;>
  by_cases h2 : TStart.includes (.tAt (now - 604800)) (txTime now t) = true <;>
  by_cases h3 : TStart.includes (.tAt (now - 2592000)) (txTime now t) = true <;>
  by_cases hm : m = t.mint <;>
  simp [h1, h2, h3, hm, ite_apply2, updMap,
    show TStart.includes TStart.minTime (txTime now t) = true from rfl]

/-- C7: for every transfer and aggregation run, inclusion in the "1d"
window implies inclusion in the "7d", "30d" and "lifetime" windows: the
window-membership guard of the aggregation loop is monotone in window
duration, and "lifetime" covers every transfer. -/
theorem window_monotonicity (now : Int) (t : Transfer)
    (h : inWindow now t "1d" = true) :
    inWindow now t "7d" = true ∧ inWindow now t "30d" = true ∧
    inWindow now t "lifetime" = true := by
  rw [inWindow_1d] at h
  simp only [TStart.includes, decide_eq_true_eq] at h
  refine ⟨?_, ?_, inWindow_lifetime now t⟩
  · rw [inWindow_7d]
    simp only [TStart.includes, decide_eq_true_eq]
    omega
  · rw [inWindow_30d]
    simp only [TStart.includes, decide_eq_true_eq]
    omega

theorem window_monotonicity_witness :
    inWindow 1000000 ⟨"X", 3, 999000, "buy", none⟩ "7d" = true ∧
    inWindow 1000000 ⟨"X", 3, 999000, "buy", none⟩ "30d" = true ∧
    inWindow 1000000 ⟨"X", 3, 999000, "buy", none⟩ "lifetime" = true :=
  window_monotonicity 1000000 ⟨"X", 3, 999000, "buy", none⟩ (by decide)

/-- C8: when an asset's id has no entry in the resolved price mapping,
aggregation still succeeds and all USD figures of every one of its buckets
are zero, while the unit amounts and trade count equal the price-independent
accumulation. -/
theorem missing_price_zero_usd (now : Int) (ts : List Transfer)
    (prices : List (String × ℚ)) (mint : String)
    (h : prices.lookup mint = none) :
    ∀ tf, (volume_bucket now ts prices mint tf).buy_usd = 0 ∧
      (volume_bucket now ts prices mint tf).sell_usd = 0 ∧
      (volume_bucket now ts prices mint tf).total_usd = 0 ∧
      (volume_bucket now ts prices mint tf).buy = (tally now ts mint tf).buy ∧
      (volume_bucket now ts prices mint tf).sell = (tally now ts mint tf).sell ∧
      (volume_bucket now ts prices mint tf).trades = (tally now ts mint tf).trades := by
  intro tf
  simp [volume_bucket, priceOf, h]

theorem missing_price_zero_usd_witness :
    (volume_bucket 1000000 [⟨"X", 10, 999000, "buy", none⟩] [("Y", 2)] "X" "1d").buy_usd = 0 ∧
    (volume_bucket 1000000 [⟨"X", 10, 999000, "buy", none⟩] [("Y", 2)] "X" "1d").sell_usd = 0 ∧
    (volume_bucket 1000000 [⟨"X", 10, 999000, "buy", none⟩] [("Y", 2)] "X" "1d").total_usd = 0 ∧
    (volume_bucket 1000000 [⟨"X", 10, 999000, "buy", none⟩] [("Y", 2)] "X" "1d").buy =
      (tally 1000000 [⟨"X", 10, 999000, "buy", none⟩] "X" "1d").buy ∧
    (volume_bucket 1000000 [⟨"X", 10, 999000, "buy", none⟩] [("Y", 2)] "X" "1d").sell =
      (tally 1000000 [⟨"X", 10, 999000, "buy", none⟩] "X" "1d").sell ∧
    (volume_bucket 1000000 [⟨"X", 10, 999000, "buy", none⟩] [("Y", 2)] "X" "1d").trades =
      (tally 1000000 [⟨"X", 10, 999000, "buy", none⟩] "X" "1d").trades :=
  missing_price_zero_usd 1000000 [⟨"X", 10, 999000, "buy", none⟩] [("Y", 2)] "X" (by decide) "1d"

/-- C9 (counterexample): the balance-path implementation of the primary
price feed (`get_jupiter_prices` in `wallet_balance.py`) has no 100-id cap:
with 101 input ids the single request carries all 101 — the id beyond the
first 100 is sent, not excluded — and, for a feed echoing one quote per
queried id, the result contains a quote for that beyond-the-cap id. -/
theorem price_batch_cap_counterexample :
    (jupiterRequestIdsBalance ((List.range 101).map (fun n => toString n))).length = 101 ∧
    "100" ∈ jupiterRequestIdsBalance ((List.range 101).map (fun n => toString n)) ∧
    "100" ∉ ((List.range 101).map (fun n => toString n)).take 100 ∧
    (get_jupiter_prices_balance (fun l => some (l.map (fun s => (s, (1 : ℚ)))))
        ((List.range 101).map (fun n => toString n))).lookup "100" = some 1 := by
  refine ⟨?_, ?_, ?_, ?_⟩ <;> decide

/-- C9 (amended): the volume-path implementations of the primary price feed
(`get_jupiter_prices` in `wallet_trading_volume.py` and in `server.py`) send
at most 100 asset ids — exactly the first 100 of the input, in one request,
not chunked — and (for a feed answering only the queried ids) their result
never quotes an id beyond the first 100; the balance-path implementation
(`get_jupiter_prices` in `wallet_balance.py`), however, sends the whole
input id list uncapped and returns the response mapping unfiltered, so ids
beyond the first 100 are not excluded there. -/
theorem price_batch_scope :
    (∀ (mints : List String) (api : List String → Option (List (String × Option ℚ))),
      (∀ rows, api (jupiterRequestIds mints) = some rows →
        ∀ r ∈ rows, r.1 ∈ jupiterRequestIds mints) →
      (jupiterRequestIds mints).length ≤ 100 ∧
      jupiterRequestIds mints = mints.take 100 ∧
      (∀ x q, (x, q) ∈ get_jupiter_prices api mints → x ∈ mints.take 100) ∧
      (∀ x, x ∉ mints.take 100 → ∀ q, (x, q) ∉ get_jupiter_prices api mints)) ∧
    (∀ mint_addresses : List String,
      jupiterRequestIdsBalance mint_addresses = mint_addresses) ∧
    (∀ (api : List String → Option (List (String × ℚ)))
        (mint_addresses : List String) (rows : List (String × ℚ)),
      mint_addresses ≠ [] → api mint_addresses = some rows →
      get_jupiter_prices_balance api mint_addresses = rows) := by
  refine ⟨?_, fun _ => rfl, ?_⟩
  · intro mints api hresp
    have hmem : ∀ x q, (x, q) ∈ get_jupiter_prices api mints → x ∈ mints.take 100 := by
      intro x q hx
      unfold get_jupiter_prices at hx
      split at hx
      · simp at hx
      · cases hapi : api (jupiterRequestIds mints) with
        | none => rw [hapi] at hx; simp at hx
        | some rows =>
          rw [hapi] at hx
          simp only [List.mem_filterMap] at hx
          obtain ⟨r, hr, hval⟩ := hx
          have hx1 : r.1 = x := by
            cases hv : r.2 with
            | none => rw [hv] at hval; simp at hval
            | some p => rw [hv] at hval; simp at hval; exact hval.1
          have := hresp rows hapi r hr
          rw [hx1] at this
          simpa [jupiterRequestIds] using this
    refine ⟨?_, rfl, hmem, ?_⟩
    · simp [jupiterRequestIds]
    · intro x hx q hq
      exact hx (hmem x q hq)
  · intro api mint_addresses rows hne hapi
    unfold get_jupiter_prices_balance jupiterRequestIdsBalance
    rw [if_neg hne, hapi]

theorem price_batch_scope_witness :
    ((jupiterRequestIds ["a", "b"]).length ≤ 100 ∧
      jupiterRequestIds ["a", "b"] = (["a", "b"] : List String).take 100 ∧
      (∀ x q, (x, q) ∈ get_jupiter_prices
          (fun l => some (l.map (fun s => (s, some (1 : ℚ))))) ["a", "b"] →
        x ∈ (["a", "b"] : List String).take 100) ∧
      (∀ x, x ∉ (["a", "b"] : List String).take 100 → ∀ q,
        (x, q) ∉ get_jupiter_prices
          (fun l => some (l.map (fun s => (s, some (1 : ℚ))))) ["a", "b"])) ∧
    jupiterRequestIdsBalance ["a"] = ["a"] ∧
    get_jupiter_prices_balance (fun l => some (l.map (fun s => (s, (1 : ℚ))))) ["a"]
      = [("a", 1)] :=
  ⟨price_batch_scope.1 ["a", "b"] (fun l => some (l.map (fun s => (s, some (1 : ℚ)))))
      (by
        intro rows h r hr
        simp only [Option.some.injEq] at h
        rw [← h] at hr
        simp only [List.mem_map] at hr
        obtain ⟨s, hs, hrs⟩ := hr
        rw [← hrs]
        exact hs),
    price_batch_scope.2.1 ["a"],
    price_batch_scope.2.2 (fun l => some (l.map (fun s => (s, (1 : ℚ))))) ["a"]
      [("a", 1)] (by decide) rfl⟩

lemma parseTokenSub_block_time (wallet : String) (bt : Int) (s : TokenXfer) :
    ∀ t ∈ parseTokenSub wallet bt s, t.block_time = bt := by
  intro t ht
  simp only [parseTokenSub] at ht
  split_ifs at ht <;> simp_all

lemma parseNativeSub_block_time (wallet : String) (bt : Int) (s : NativeXfer) :
    ∀ t ∈ parseNativeSub wallet bt s, t.block_time = bt := by
  intro t ht
  simp only [parseNativeSub] at ht
  split_ifs at ht <;> simp_all

/-- C1 (counterexample): a record with no block timestamp yields a transfer
with `occurred_at = 0`, yet that transfer is counted in the bounded "1d"
window — contradicting the claim that it lands only in "lifetime". -/
theorem missing_timestamp_counterexample :
    parse_helius_transactions
        [⟨none, none, none, [⟨some "M", some "", some "W", some 5⟩], []⟩] "W"
      = [⟨"M", 5, 0, "buy", none⟩] ∧
    inWindow 1000000 ⟨"M", 5, 0, "buy", none⟩ "1d" = true := by
  constructor <;> decide

/-- C1 (amended): the normalizer does attach `occurred_at = 0` when the raw
record has no block timestamp, but the aggregator turns a zero (falsy)
timestamp into the current time, so such a transfer is counted in every
window — "1d", "7d", "30d" and "lifetime" — not only in "lifetime". -/
theorem missing_timestamp_bucketing :
    (∀ (tx : HeliusTx) (wallet : String), tx.timestamp = none →
      ∀ t ∈ parse_helius_transactions [tx] wallet, t.block_time = 0) ∧
    (∀ (now : Int) (t : Transfer), t.block_time = 0 →
      inWindow now t "1d" = true ∧ inWindow now t "7d" = true ∧
      inWindow now t "30d" = true ∧ inWindow now t "lifetime" = true) := by
  constructor
  · intro tx wallet hts t ht
    simp only [parse_helius_transactions, List.flatMap_cons, List.flatMap_nil,
      List.append_nil, List.mem_append, List.mem_flatMap] at ht
    rcases ht with ⟨s, _, hs⟩ | ⟨s, _, hs⟩
    · have := parseTokenSub_block_time wallet (tx.timestamp.getD 0) s t hs
      rw [this, hts]; rfl
    · have := parseNativeSub_block_time wallet (tx.timestamp.getD 0) s t hs
      rw [this, hts]; rfl
  · intro now t h0
    have htx : txTime now t = now := by simp [txTime, h0]
    refine ⟨?_, ?_, ?_, inWindow_lifetime now t⟩ <;>
      simp [inWindow_1d, inWindow_7d, inWindow_30d, htx, TStart.includes]

theorem missing_timestamp_bucketing_witness :
    (⟨"M", 5, 0, "buy", none⟩ : Transfer).block_time = 0 ∧
    inWindow 1000000 ⟨"M", 5, 0, "buy", none⟩ "7d" = true :=
  ⟨missing_timestamp_bucketing.1
      ⟨none, none, none, [⟨some "M", some "", some "W", some 5⟩], []⟩ "W" rfl
      ⟨"M", 5, 0, "buy", none⟩ (by decide),
    (missing_timestamp_bucketing.2 1000000 ⟨"M", 5, 0, "buy", none⟩ rfl).2.1⟩

/-- C2 (counterexample): an Enriched record carrying a top-level execution
error flag (`transactionError`) whose token sub-entry pays the target still
yields one transfer — the Enriched parser never consults the error flag. -/
theorem error_flag_enriched_counterexample :
    parse_helius_transactions
        [⟨some 5, none, some "failed", [⟨some "M", some "", some "W", some 3⟩], []⟩] "W"
      = [⟨"M", 3, 5, "buy", none⟩] ∧
    parse_helius_transactions
        [⟨some 5, none, some "failed", [⟨some "M", some "", some "W", some 3⟩], []⟩] "W"
      ≠ [] := by
  constructor <;> decide

/-- C2 (amended): only the Minimal-variant normalizer skips error-flagged
records (a truthy `meta.err` yields zero transfers); the Enriched-variant
normalizer ignores the record's error flag entirely — its output is
invariant under changing that flag, and a failed transaction's transfers
are still extracted. -/
theorem error_flag_skip :
    (∀ (tx : MinimalTx) (wallet : String) (meta : MinimalMeta),
      tx.meta = some meta → errTruthy meta.err = true →
      parse_token_transfers tx wallet = []) ∧
    (∀ (r : HeliusTx) (e : Option String) (wallet : String),
      parse_helius_transactions [setTxError r e] wallet =
        parse_helius_transactions [r] wallet) := by
  constructor
  · intro tx wallet meta hm he
    unfold parse_token_transfers
    rw [hm]
    simp [he]
  · intro r e wallet
    rfl

theorem error_flag_skip_witness :
    parse_token_transfers
      ⟨some ⟨some "boom", [⟨1, some "M", some "W", some 3, some 6⟩],
        [⟨1, some "M", some "W", some 10, some 6⟩], [], []⟩, [], some 99⟩ "W" = [] :=
  error_flag_skip.1
    ⟨some ⟨some "boom", [⟨1, some "M", some "W", some 3, some 6⟩],
      [⟨1, some "M", some "W", some 10, some 6⟩], [], []⟩, [], some 99⟩ "W"
    ⟨some "boom", [⟨1, some "M", some "W", some 3, some 6⟩],
      [⟨1, some "M", some "W", some 10, some 6⟩], [], []⟩ rfl (by decide)

/-- C10 (counterexample): a token sub-entry whose `from` and `to` both equal
the target but whose amount is zero is skipped, producing zero transfers —
not "exactly one" as claimed. -/
theorem self_transfer_counterexample :
    parse_helius_transactions
      [⟨none, none, none, [⟨some "M", some "W", some "W", some 0⟩], []⟩] "W" = [] := by
  decide

/-- C10 (amended): in the Enriched normalizer, any sub-entry whose recipient
is the target — in particular a self-transfer with `from = to = target` —
that survives the skip guards (nonempty mint and nonzero amount for token
entries; amount at or above the fee threshold for native entries) produces
exactly one transfer, classified as buy; no sell entry is ever emitted when
the recipient matches, since the recipient check precedes the sender check. -/
theorem self_transfer_buy :
    (∀ (wallet : String) (bt : Int) (s : TokenXfer),
      s.toUser = some wallet → ¬ (s.mint.getD "").isEmpty →
      s.tokenAmount.getD 0 ≠ 0 →
      parseTokenSub wallet bt s =
        [⟨s.mint.getD "", s.tokenAmount.getD 0, bt, "buy", none⟩]) ∧
    (∀ (wallet : String) (bt : Int) (s : NativeXfer),
      s.toUser = some wallet → ¬ ((s.amount.getD 0) / 1000000000 < 1 / 1000) →
      parseNativeSub wallet bt s =
        [⟨solMint, (s.amount.getD 0) / 1000000000, bt, "buy", none⟩]) ∧
    (∀ (wallet : String) (bt : Int) (s : TokenXfer), s.toUser = some wallet →
      ∀ t ∈ parseTokenSub wallet bt s, t.ttype = "buy") ∧
    (∀ (wallet : String) (bt : Int) (s : NativeXfer), s.toUser = some wallet →
      ∀ t ∈ parseNativeSub wallet bt s, t.ttype = "buy") := by
  refine ⟨?_, ?_, ?_, ?_⟩
  · intro wallet bt s hto hm ha
    unfold parseTokenSub
    dsimp only
    rw [hto]
    dsimp only [Option.getD_some]
    rw [if_neg (by simp [hm, ha]), if_pos rfl]
  · intro wallet bt s hto ha
    unfold parseNativeSub
    dsimp only
    rw [hto]
    dsimp only [Option.getD_some]
    rw [if_neg ha, if_pos rfl]
  · intro wallet bt s hto t ht
    simp only [parseTokenSub, hto, Option.getD_some] at ht
    split_ifs at ht <;> simp_all
  · intro wallet bt s hto t ht
    simp only [parseNativeSub, hto, Option.getD_some] at ht
    split_ifs at ht <;> simp_all

theorem self_transfer_buy_witness :
    parseTokenSub "W" 7 ⟨some "M", some "W", some "W", some 5⟩ =
      [⟨"M", 5, 7, "buy", none⟩] :=
  self_transfer_buy.1 "W" 7 ⟨some "M", some "W", some "W", some 5⟩ rfl
    (by decide) (by decide)

/-- C4: aggregating a buy of 10 units three hours before now and a sell of
4 units two days before now for asset "X" at unit price 2.0 yields
1d = (buy 10, sell 0, 1 trade, 20 USD), 7d = (buy 10, sell 4, 2 trades,
28 USD), and a lifetime bucket equal to the 7d bucket. The two side
conditions exclude the degenerate clock values at which a transfer's
timestamp would be exactly 0 and hence (falsy) rebased to `now`. -/
theorem two_transfer_scenario (now : Int) (hA : now ≠ 10800) (hB : now ≠ 172800) :
    volume_bucket now
        [⟨"X", 10, now - 10800, "buy", none⟩, ⟨"X", -4, now - 172800, "sell", none⟩]
        [("X", 2)] "X" "1d" = ⟨10, 0, 20, 0, 20, 1⟩ ∧
    volume_bucket now
        [⟨"X", 10, now - 10800, "buy", none⟩, ⟨"X", -4, now - 172800, "sell", none⟩]
        [("X", 2)] "X" "7d" = ⟨10, 4, 20, 8, 28, 2⟩ ∧
    volume_bucket now
        [⟨"X", 10, now - 10800, "buy", none⟩, ⟨"X", -4, now - 172800, "sell", none⟩]
        [("X", 2)] "X" "lifetime" =
      volume_bucket now
        [⟨"X", 10, now - 10800, "buy", none⟩, ⟨"X", -4, now - 172800, "sell", none⟩]
        [("X", 2)] "X" "7d" := by
  have ht1 : txTime now (⟨"X", 10, now - 10800, "buy", none⟩ : Transfer) = now - 10800 := by
    simp only [txTime]
    rw [if_neg (by omega)]
  have ht2 : txTime now (⟨"X", -4, now - 172800, "sell", none⟩ : Transfer) = now - 172800 := by
    simp only [txTime]
    rw [if_neg (by omega)]
  have w11 : inWindow now (⟨"X", 10, now - 10800, "buy", none⟩ : Transfer) "1d" = true := by
    rw [inWindow_1d, ht1]
    simp only [TStart.includes, decide_eq_true_eq]
    omega
  have w12 : inWindow now (⟨"X", -4, now - 172800, "sell", none⟩ : Transfer) "1d" = false := by
    rw [inWindow_1d, ht2]
    simp only [TStart.includes, decide_eq_false_iff_not]
    omega
  have w71 : inWindow now (⟨"X", 10, now - 10800, "buy", none⟩ : Transfer) "7d" = true := by
    rw [inWindow_7d, ht1]
    simp only [TStart.includes, decide_eq_true_eq]
    omega
  have w72 : inWindow now (⟨"X", -4, now - 172800, "sell", none⟩ : Transfer) "7d" = true := by
    rw [inWindow_7d, ht2]
    simp only [TStart.includes, decide_eq_true_eq]
    omega
  have c1 : tally now
      [⟨"X", 10, now - 10800, "buy", none⟩, ⟨"X", -4, now - 172800, "sell", none⟩]
      "X" "1d" = ⟨10, 0, 1⟩ := by
    unfold tally
    simp only [List.foldl]
    rw [tallyOne_1d, tallyOne_1d]
    norm_num [w11, w12, tAdd]
  have c7 : tally now
      [⟨"X", 10, now - 10800, "buy", none⟩, ⟨"X", -4, now - 172800, "sell", none⟩]
      "X" "7d" = ⟨10, 4, 2⟩ := by
    unfold tally
    simp only [List.foldl]
    rw [tallyOne_7d, tallyOne_7d]
    norm_num [w71, w72, tAdd]
  have cL : tally now
      [⟨"X", 10, now - 10800, "buy", none⟩, ⟨"X", -4, now - 172800, "sell", none⟩]
      "X" "lifetime" = ⟨10, 4, 2⟩ := by
    unfold tally
    simp only [List.foldl]
    rw [tallyOne_lifetime, tallyOne_lifetime]
    norm_num [tAdd]
  refine ⟨?_, ?_, ?_⟩
  · simp only [volume_bucket, c1]
    norm_num [priceOf]
  · simp only [volume_bucket, c7]
    norm_num [priceOf]
  · simp only [volume_bucket, c7, cL]

theorem two_transfer_scenario_witness :
    volume_bucket 1000000
        [⟨"X", 10, 1000000 - 10800, "buy", none⟩, ⟨"X", -4, 1000000 - 172800, "sell", none⟩]
        [("X", 2)] "X" "1d" = ⟨10, 0, 20, 0, 20, 1⟩ ∧
    volume_bucket 1000000
        [⟨"X", 10, 1000000 - 10800, "buy", none⟩, ⟨"X", -4, 1000000 - 172800, "sell", none⟩]
        [("X", 2)] "X" "7d" = ⟨10, 4, 20, 8, 28, 2⟩ ∧
    volume_bucket 1000000
        [⟨"X", 10, 1000000 - 10800, "buy", none⟩, ⟨"X", -4, 1000000 - 172800, "sell", none⟩]
        [("X", 2)] "X" "lifetime" =
      volume_bucket 1000000
        [⟨"X", 10, 1000000 - 10800, "buy", none⟩, ⟨"X", -4, 1000000 - 172800, "sell", none⟩]
        [("X", 2)] "X" "7d" :=
  two_transfer_scenario 1000000 (by decide) (by decide)


lemma pag_stop (api : Option String → Except Unit (List PageTx)) (fuel : Nat)
    (cursor : Option String) (acc : List PageTx) (reqs : Nat)
    (page : List PageTx)
    (hapi : api cursor = .ok page) (hs : stopPage page) :
    get_helius_transaction_history api (fuel + 1) cursor acc reqs =
      ⟨acc ++ page, reqs + 1, true⟩ := by
  simp only [get_helius_transaction_history]
  rw [hapi]
  dsimp only
  by_cases hpe : page = []
  · rw [if_pos hpe]
    simp [hpe]
  · rw [if_neg hpe]
    have hc : sigMissing (lastSig page) = true ∨ page.length < 100 := by
      rcases hs with h | h | h
      · exact absurd h hpe
      · exact Or.inl h
      · exact Or.inr h
    rw [if_pos hc]

lemma pag_cont (api : Option String → Except Unit (List PageTx)) (fuel : Nat)
    (cursor : Option String) (acc : List PageTx) (reqs : Nat)
    (page : List PageTx)
    (hapi : api cursor = .ok page) (hs : ¬ stopPage page) :
    get_helius_transaction_history api (fuel + 1) cursor acc reqs =
      get_helius_transaction_history api fuel (lastSig page) (acc ++ page)
        (reqs + 1) := by
  simp only [get_helius_transaction_history]
  rw [hapi]
  dsimp only
  simp only [stopPage, not_or] at hs
  rw [if_neg hs.1]
  rw [if_neg (by push_neg; exact ⟨by simpa using hs.2.1, by omega⟩)]

lemma pag_scengo (fuel : Nat) (hf : 3 ≤ fuel) :
    scenarioFetch fuel = ⟨(page1 ++ page2) ++ page3, 3, true⟩ := by
  obtain ⟨k, rfl⟩ := Nat.exists_eq_add_of_le hf
  have e : 3 + k = (k + 2) + 1 := by omega
  unfold scenarioFetch
  rw [e]
  rw [pag_cont scenarioApi (k + 2) none [] 0 page1 rfl (by decide)]
  have e2 : k + 2 = (k + 1) + 1 := by omega
  rw [e2]
  rw [show lastSig page1 = some "a" from by decide]
  rw [pag_cont scenarioApi (k + 1) (some "a") ([] ++ page1) 1 page2 rfl (by decide)]
  rw [show lastSig page2 = some "b" from by decide]
  rw [pag_stop scenarioApi k (some "b") (([] ++ page1) ++ page2) 2 page3 rfl (by decide)]
  simp only [List.nil_append]

/-- C5: the pagination loop stops requesting further pages exactly at the
content-driven stop conditions — empty page, missing (or falsy) pagination
key on the last record, or page shorter than the page size of 100 — and
otherwise continues with the last record's key as cursor; on successful
pages of sizes [100, 100, 37] it finishes after the third request with
exactly 237 accumulated records and no further request issued, however much
extra fuel the loop model is granted. -/
theorem pagination_termination :
    (∀ (api : Option String → Except Unit (List PageTx)) (fuel : Nat)
        (cursor : Option String) (acc : List PageTx) (reqs : Nat)
        (page : List PageTx),
      api cursor = .ok page → stopPage page →
      get_helius_transaction_history api (fuel + 1) cursor acc reqs =
        ⟨acc ++ page, reqs + 1, true⟩) ∧
    (∀ (api : Option String → Except Unit (List PageTx)) (fuel : Nat)
        (cursor : Option String) (acc : List PageTx) (reqs : Nat)
        (page : List PageTx),
      api cursor = .ok page → ¬ stopPage page →
      get_helius_transaction_history api (fuel + 1) cursor acc reqs =
        get_helius_transaction_history api fuel (lastSig page) (acc ++ page)
          (reqs + 1)) ∧
    (∀ fuel : Nat, 3 ≤ fuel →
      (scenarioFetch fuel).records.length = 237 ∧
      (scenarioFetch fuel).requests = 3 ∧
      (scenarioFetch fuel).finished = true) := by
  refine ⟨pag_stop, pag_cont, ?_⟩
  intro fuel hf
  rw [pag_scengo fuel hf]
  refine ⟨?_, rfl, rfl⟩
  simp only [page1, page2, page3, List.length_append, List.length_replicate]

theorem pagination_termination_witness :
    (scenarioFetch 3).records.length = 237 ∧ (scenarioFetch 3).requests = 3 ∧
    (scenarioFetch 3).finished = true :=
  pagination_termination.2.2 3 (by decide)

/-- C6 (counterexample): a garbage Enriched record carrying a negative
`tokenAmount` whose recipient is the target yields a transfer classified
"buy" with negative signed amount — the token branch only filters
`amount == 0`, so the claimed invariant fails on the code. -/
theorem sign_classification_counterexample :
    parse_helius_transactions
        [⟨none, none, none, [⟨some "M", some "", some "W", some (-5)⟩], []⟩] "W"
      = [⟨"M", -5, 0, "buy", none⟩] ∧
    ¬ ((⟨"M", -5, 0, "buy", none⟩ : Transfer).ttype = "buy" ↔
        (⟨"M", -5, 0, "buy", none⟩ : Transfer).change > 0) := by
  constructor <;> decide

/-- C6 (amended): every transfer produced by the Minimal-variant normalizer
satisfies `signed_amount ≠ 0` and `classification = buy ↔ signed_amount > 0`
unconditionally; for the Enriched-variant normalizer the same invariant
holds provided every raw token-transfer amount is nonnegative (native
amounts need no proviso: the 0.001 fee threshold drops nonpositive ones),
but a negative raw token amount can break it. -/
theorem sign_classification_invariant :
    (∀ (txs : List HeliusTx) (wallet : String),
      (∀ tx ∈ txs, ∀ s ∈ tx.tokenTransfers, 0 ≤ s.tokenAmount.getD 0) →
      ∀ t ∈ parse_helius_transactions txs wallet,
        t.change ≠ 0 ∧ (t.ttype = "buy" ↔ t.change > 0)) ∧
    (∀ (tx : MinimalTx) (wallet : String),
      ∀ t ∈ parse_token_transfers tx wallet,
        t.change ≠ 0 ∧ (t.ttype = "buy" ↔ t.change > 0)) := by
  constructor
  · intro txs wallet hnn t ht
    simp only [parse_helius_transactions, List.mem_flatMap, List.mem_append] at ht
    obtain ⟨tx, htx, ht⟩ := ht
    rcases ht with ⟨s, hs, hts⟩ | ⟨s, hs, hts⟩
    · have hnn2 := hnn tx htx s hs
      simp only [parseTokenSub] at hts
      split_ifs at hts with h1 h2 h3
      · simp at hts
      · obtain ⟨hm0, ha0⟩ := not_or.mp h1
        have hpos : 0 < s.tokenAmount.getD 0 :=
          lt_of_le_of_ne hnn2 (Ne.symm ha0)
        simp only [List.mem_singleton] at hts
        rw [hts]
        exact ⟨ne_of_gt hpos, by simpa using hpos⟩
      · obtain ⟨hm0, ha0⟩ := not_or.mp h1
        have hneg : ¬ (0 < -(s.tokenAmount.getD 0)) := by
          simpa using le_trans (neg_nonpos_of_nonneg hnn2) hnn2
        simp only [List.mem_singleton] at hts
        rw [hts]
        refine ⟨by simpa using ha0, ?_⟩
        simp only [show ("sell" : String) ≠ "buy" from by decide]
        simpa using hneg
      · simp at hts
    · simp only [parseNativeSub] at hts
      split_ifs at hts with h1 h2 h3
      · simp at hts
      · have hpos : 0 < s.amount.getD 0 / 1000000000 :=
          lt_of_lt_of_le (by norm_num) (le_of_not_lt h1)
        simp only [List.mem_singleton] at hts
        rw [hts]
        exact ⟨ne_of_gt hpos, by simpa using hpos⟩
      · have hpos : 0 < s.amount.getD 0 / 1000000000 :=
          lt_of_lt_of_le (by norm_num) (le_of_not_lt h1)
        simp only [List.mem_singleton] at hts
        rw [hts]
        refine ⟨by simpa using ne_of_gt hpos, ?_⟩
        simp only [show ("sell" : String) ≠ "buy" from by decide]
        simp only [neg_pos]
        simpa using not_lt_of_gt hpos
      · simp at hts
  · intro tx wallet t ht
    unfold parse_token_transfers at ht
    cases hmeta : tx.meta with
    | none => rw [hmeta] at ht; simp at ht
    | some meta =>
      rw [hmeta] at ht
      dsimp only at ht
      by_cases he : errTruthy meta.err = true
      · rw [if_pos he] at ht
        simp at ht
      · rw [if_neg he] at ht
        simp only [List.mem_append, List.mem_flatMap] at ht
        rcases ht with ⟨idx, hidx, hti⟩ | hsol
        · simp only [diffTokenIdx] at hti
          split_ifs at hti with h1 h2 h3
          · simp at hti
          · simp only [List.mem_singleton] at hti
            rw [hti]
            exact ⟨abs_pos.mp h2, by simpa using h3⟩
          · simp only [List.mem_singleton] at hti
            rw [hti]
            refine ⟨abs_pos.mp h2, ?_⟩
            simp only [show ("sell" : String) ≠ "buy" from by decide]
            simpa using h3
          · simp at hti
        · split_ifs at hsol with hne3
          · simp only [List.mem_flatMap] at hsol
            obtain ⟨ik, hik, hti⟩ := hsol
            simp only [diffSolIdx] at hti
            split_ifs at hti with h1 h2 h3
            · simp only [List.mem_singleton] at hti
              rw [hti]
              have hne : ((meta.postBalances.getD ik.1 0 : Int) -
                  (meta.preBalances.getD ik.1 0 : Int) : ℚ) / 1000000000 ≠ 0 :=
                abs_pos.mp (lt_trans (by norm_num) h2)
              exact ⟨hne, by simpa using h3⟩
            · simp only [List.mem_singleton] at hti
              rw [hti]
              have hne : ((meta.postBalances.getD ik.1 0 : Int) -
                  (meta.preBalances.getD ik.1 0 : Int) : ℚ) / 1000000000 ≠ 0 :=
                abs_pos.mp (lt_trans (by norm_num) h2)
              refine ⟨hne, ?_⟩
              simp only [show ("sell" : String) ≠ "buy" from by decide]
              simpa using h3
            · simp at hti
            · simp at hti
          · simp at hsol

theorem sign_classification_invariant_witness :
    (⟨"M", 3, 5, "buy", none⟩ : Transfer).change ≠ 0 ∧
    ((⟨"M", 3, 5, "buy", none⟩ : Transfer).ttype = "buy" ↔
      (⟨"M", 3, 5, "buy", none⟩ : Transfer).change > 0) :=
  sign_classification_invariant.1
    [⟨some 5, none, none, [⟨some "M", some "", some "W", some 3⟩], []⟩] "W"
    (by decide) ⟨"M", 3, 5, "buy", none⟩ (by decide)

lemma exOk_bind {x : Except String α} {f : α → Except String β} :
    exOk (x >>= f) = true ↔ ∃ a, x = .ok a ∧ exOk (f a) = true := by
  cases x with
  | ok a =>
    constructor
    · intro h
      exact ⟨a, rfl, h⟩
    · rintro ⟨b, hb, h⟩
      cases hb
      exact h
  | error e =>
    constructor
    · intro h
      exact absurd h (by simp [exOk, Except.bind, Bind.bind])
    · rintro ⟨b, hb, h⟩
      cases hb

lemma ok_bind (a : α) (f : α → Except String β) :
    (Except.ok a >>= f) = f a := rfl

lemma exOk_exists {e : Except String α} (h : exOk e = true) :
    ∃ a, e = .ok a := by
  cases e with
  | ok a => exact ⟨a, rfl⟩
  | error e2 => simp [exOk] at h

lemma exOk_rawAppendAll (f : PyVal → Except String (List PyVal))
    (xs : List PyVal) (h : ∀ x ∈ xs, exOk (f x) = true) :
    ∀ acc, exOk (rawAppendAll f xs acc) = true := by
  induction xs with
  | nil => intro acc; rfl
  | cons x xs ih =>
    intro acc
    unfold rawAppendAll
    simp only [List.foldlM_cons]
    obtain ⟨one, hone⟩ := exOk_exists (h x (by simp))
    rw [hone, ok_bind]
    rw [show (pure (acc ++ one) : Except String (List PyVal)) =
      Except.ok (acc ++ one) from rfl, ok_bind]
    exact ih (fun y hy => h y (by simp [hy])) (acc ++ one)

lemma exOk_rawTokenSub (w : String) (bt : PyVal) (sub : PyVal)
    (h : wfSub "tokenAmount" sub = true) : exOk (rawTokenSub w bt sub) = true := by
  cases sub with
  | pdict kvs =>
    unfold rawTokenSub
    simp only [pyGet, ok_bind]
    have hf : exOk (pyFloat ((assocFind kvs "tokenAmount").getD (.pnum 0))) = true := by
      simpa [wfSub, dGetD] using h
    obtain ⟨q, hq⟩ := exOk_exists hf
    rw [hq, ok_bind]
    split_ifs <;> rfl
  | pnone => simp [wfSub] at h
  | pbool b => simp [wfSub] at h
  | pnum q => simp [wfSub] at h
  | pstr s => simp [wfSub] at h
  | plist xs => simp [wfSub] at h

lemma exOk_rawNativeSub (w : String) (bt : PyVal) (sub : PyVal)
    (h : wfSub "amount" sub = true) : exOk (rawNativeSub w bt sub) = true := by
  cases sub with
  | pdict kvs =>
    unfold rawNativeSub
    simp only [pyGet, ok_bind]
    have hf : exOk (pyFloat ((assocFind kvs "amount").getD (.pnum 0))) = true := by
      simpa [wfSub, dGetD] using h
    obtain ⟨q, hq⟩ := exOk_exists hf
    rw [hq, ok_bind]
    split_ifs <;> rfl
  | pnone => simp [wfSub] at h
  | pbool b => simp [wfSub] at h
  | pnum q => simp [wfSub] at h
  | pstr s => simp [wfSub] at h
  | plist xs => simp [wfSub] at h

lemma wfListOf_plist {v : PyVal} {key : String} (h : wfListOf v key = true) :
    ∃ xs, v = .plist xs ∧ ∀ x ∈ xs, wfSub key x = true := by
  cases v with
  | plist xs =>
    refine ⟨xs, rfl, ?_⟩
    simpa [wfListOf, List.all_eq_true] using h
  | pnone => simp [wfListOf] at h
  | pbool b => simp [wfListOf] at h
  | pnum q => simp [wfListOf] at h
  | pstr s => simp [wfListOf] at h
  | pdict kvs => simp [wfListOf] at h

lemma exOk_rawParseTx (w : String) (tx : PyVal) (h : wfTxRaw tx = true) :
    exOk (rawParseTx w tx) = true := by
  cases tx with
  | pdict kvs =>
    have htok : wfListOf (dGetD (.pdict kvs) "tokenTransfers" (.plist [])) "tokenAmount" = true := by
      simp only [wfTxRaw, Bool.and_eq_true] at h
      exact h.1
    have hnat : wfListOf (dGetD (.pdict kvs) "nativeTransfers" (.plist [])) "amount" = true := by
      simp only [wfTxRaw, Bool.and_eq_true] at h
      exact h.2
    obtain ⟨toks, htokv, htokwf⟩ := wfListOf_plist htok
    obtain ⟨nats, hnatv, hnatwf⟩ := wfListOf_plist hnat
    unfold rawParseTx
    simp only [pyGet, ok_bind]
    rw [show (assocFind kvs "tokenTransfers").getD (.plist []) =
      dGetD (.pdict kvs) "tokenTransfers" (.plist []) from rfl, htokv]
    simp only [pyIter, ok_bind]
    obtain ⟨r1, hr1⟩ := exOk_exists
      (exOk_rawAppendAll _ toks (fun x hx => exOk_rawTokenSub w _ x (htokwf x hx)) [])
    rw [hr1, ok_bind]
    rw [show (assocFind kvs "nativeTransfers").getD (.plist []) =
      dGetD (.pdict kvs) "nativeTransfers" (.plist []) from rfl, hnatv]
    simp only [pyIter, ok_bind]
    obtain ⟨r2, hr2⟩ := exOk_exists
      (exOk_rawAppendAll _ nats (fun x hx => exOk_rawNativeSub w _ x (hnatwf x hx)) r1)
    rw [hr2, ok_bind]
    rfl
  | pnone => simp [wfTxRaw] at h
  | pbool b => simp [wfTxRaw] at h
  | pnum q => simp [wfTxRaw] at h
  | pstr s => simp [wfTxRaw] at h
  | plist xs => simp [wfTxRaw] at h

/-- C3 (counterexample): `normalize` is not total over garbage input — a
record whose `tokenTransfers` entry carries a non-numeric string
`tokenAmount` makes `float(...)` raise an uncaught `ValueError`, so the
Enriched normalizer raises instead of skipping the malformed entry. -/
theorem normalize_raises_counterexample :
    exOk (rawParseHelius
      [.pdict [("tokenTransfers",
        .plist [.pdict [("tokenAmount", .pstr "garbage")]])]] "W") = false := by
  decide

/-- C3 (amended): the normalizer is total — no exception, malformed entries
skipped via defaults — on every input list whose records are wellformed
(each record a dict whose `tokenTransfers`/`nativeTransfers` fields, when
present, are lists of dicts with `float`-convertible amount fields); but it
is not total over arbitrary garbage: an ill-typed amount field raises. -/
theorem normalize_totality (txs : List PyVal) (w : String)
    (h : txs.all wfTxRaw = true) : exOk (rawParseHelius txs w) = true := by
  unfold rawParseHelius
  refine exOk_rawAppendAll _ txs ?_ []
  intro x hx
  exact exOk_rawParseTx w x (by
    rw [List.all_eq_true] at h
    exact h x hx)

theorem normalize_totality_witness :
    exOk (rawParseHelius
      [.pdict [("timestamp", .pnum 5),
        ("tokenTransfers", .plist
          [.pdict [("mint", .pstr "M"), ("toUserAccount", .pstr "W"),
            ("tokenAmount", .pnum 3)]]),
        ("nativeTransfers", .plist
          [.pdict [("fromUserAccount", .pstr "W"),
            ("amount", .pnum 2000000000)]])]] "W") = true :=
  normalize_totality
    [.pdict [("timestamp", .pnum 5),
      ("tokenTransfers", .plist
        [.pdict [("mint", .pstr "M"), ("toUserAccount", .pstr "W"),
          ("tokenAmount", .pnum 3)]]),
      ("nativeTransfers", .plist
        [.pdict [("fromUserAccount", .pstr "W"),
          ("amount", .pnum 2000000000)]])]] "W" (by decide)
